import Mathlib

/-!
# USP client contract (`source/core/include/usp.h`)

A shallow embedding of the public contract of usplib: the result-code space
defined by the macros of `usp.h`, and a sequential model of the client engine
behind the four entry points the header declares (`UspInitialize`, `UspWrite`,
`UspShutdown`, `UspRun`).

The first part (result codes) is a transcription of the header.  Integer
values are mathematical integers (`Int`); the bitwise operators of C are
`Int.land`, `Int.xor` and `Int.lor`, which act on the two's-complement
representation, and the conversions to the 32-bit `unsigned int` of the
macro and to the 32-bit `int` behind `UspResult` are written out with an
explicit reduction modulo `2 ^ 32`.  `USP_ERRCODE` is a macro: its argument is
a sequence of tokens, pasted into the body without parentheses, and is
modelled as such.
-/

namespace Usp

/-! ## Result codes (usp.h, lines 25-90) -/

/-- Header line 25, `typedef int UspResult;`: the value a 32-bit
two's-complement `int` holds after `v` is stored in it, the representative of
`v` modulo `2 ^ 32` in the range `-2 ^ 31 .. 2 ^ 31 - 1`. -/
def toUspResult (v : Int) : Int := (v + 2 ^ 31) % 2 ^ 32 - 2 ^ 31

/-- A value taken as a 32-bit pattern (what `unsigned int` holds). -/
def bits32 (v : Int) : Int := v % 2 ^ 32

/-- Header: `#define USP_SUCCESS ((UspResult)0)` -/
def USP_SUCCESS : Int := toUspResult 0

/-- The binary operators of C that bind no tighter than `&`, tightest first:
`&`, `^`, `|`. -/
inductive BitOp where
  | band
  | bxor
  | bor
  deriving DecidableEq, Repr

/-- The argument of a macro call as the preprocessor pastes it, a sequence of
tokens `first op v op v ...`.  An operand stands for an expression whose
operators all bind tighter than `&` (a literal, an identifier, a
parenthesised expression, a sum, ...), given by the value it has as a 32-bit
`int` or `unsigned int`.  The logical and conditional operators, which bind
looser than `|`, are left out. -/
structure MacroArg where
  first : Int
  rest : List (BitOp × Int)
  deriving DecidableEq, Repr

/-- The argument that is one operand: a literal, an identifier, a
parenthesised expression. -/
def MacroArg.primary (v : Int) : MacroArg := { first := v, rest := [] }

/-- The value of a token sequence under the precedence of C, `&` over `^`
over `|`, each associating to the left.  `o` is the OR of the operands of `|`
that are complete, `x` the XOR of the operands of `^` that are complete
within the current operand of `|`, `a` the operand of `^` being read. -/
def evalTokens : Int → Int → Int → List (BitOp × Int) → Int
  | o, x, a, [] => Int.lor o (Int.xor x a)
  | o, x, a, (BitOp.band, v) :: rest => evalTokens o x (Int.land a v) rest
  | o, x, a, (BitOp.bxor, v) :: rest => evalTokens o (Int.xor x a) v rest
  | o, x, a, (BitOp.bor, v) :: rest => evalTokens (Int.lor o (Int.xor x a)) 0 v rest

/-- The value of the argument expression itself. -/
def MacroArg.eval (x : MacroArg) : Int := evalTokens 0 0 x.first x.rest

/-- Header line 29: `#define USP_ERRCODE(x) (0x800f6000 | (x & 0x0fff))`.  The
tokens of `x` are pasted in front of `& 0x0fff` as they are, the macro does
not parenthesise `x`; the inner parentheses are evaluated as one expression
and OR-ed with `0x800f6000`, an `unsigned int`, so the result is the 32-bit
unsigned value. -/
def USP_ERRCODE (x : MacroArg) : Int :=
  bits32 (Int.lor 0x800f6000 (evalTokens 0 0 x.first (x.rest ++ [(BitOp.band, 0x0fff)])))

/-- Header: `#define USP_NOT_IMPLEMENTED USP_ERRCODE(0xfff)` -/
def USP_NOT_IMPLEMENTED : Int := USP_ERRCODE (MacroArg.primary 0xfff)

/-- Header: `#define USP_UNINTIALIZED USP_ERRCODE(0x001)` -/
def USP_UNINTIALIZED : Int := USP_ERRCODE (MacroArg.primary 0x001)

/-- Header: `#define USP_ALREADY_INTIALIZED USP_ERRCODE(0x002)` -/
def USP_ALREADY_INTIALIZED : Int := USP_ERRCODE (MacroArg.primary 0x002)

/-- Header: `#define USP_INITIALIZATION_FAILURE USP_ERRCODE(0x003)` -/
def USP_INITIALIZATION_FAILURE : Int := USP_ERRCODE (MacroArg.primary 0x003)

/-- Header: `#define USP_INVALID_HANDLE USP_ERRCODE(0x004)` -/
def USP_INVALID_HANDLE : Int := USP_ERRCODE (MacroArg.primary 0x004)

/-- Header: `#define USP_INVALID_PARAMETER USP_ERRCODE(0x005)` -/
def USP_INVALID_PARAMETER : Int := USP_ERRCODE (MacroArg.primary 0x005)

/-- Header: `#define USP_INVALID_DATA USP_ERRCODE(0x006)` -/
def USP_INVALID_DATA : Int := USP_ERRCODE (MacroArg.primary 0x006)

/-- Header: `#define USP_WRITE_ERROR USP_ERRCODE(0x010)` -/
def USP_WRITE_ERROR : Int := USP_ERRCODE (MacroArg.primary 0x010)

/-- Header: `#define USP_TRANSPORT_ERROR_GENERIC USP_ERRCODE(0x020)` -/
def USP_TRANSPORT_ERROR_GENERIC : Int := USP_ERRCODE (MacroArg.primary 0x020)

/-- Header: `#define USP_AUTH_ERROR USP_ERRCODE(0x021)` -/
def USP_AUTH_ERROR : Int := USP_ERRCODE (MacroArg.primary 0x021)

/-- Header: `#define USP_NO_CONNECTION_ERROR USP_ERRCODE(0x022)` -/
def USP_NO_CONNECTION_ERROR : Int := USP_ERRCODE (MacroArg.primary 0x022)

/-- Header: `#define USP_CONNECTION_TIMEOUT_ERROR USP_ERRCODE(0x023)` -/
def USP_CONNECTION_TIMEOUT_ERROR : Int := USP_ERRCODE (MacroArg.primary 0x023)

/-- The twelve named failure constants, in the order the header defines them. -/
def failureCodes : List Int :=
  [USP_NOT_IMPLEMENTED, USP_UNINTIALIZED, USP_ALREADY_INTIALIZED, USP_INITIALIZATION_FAILURE,
   USP_INVALID_HANDLE, USP_INVALID_PARAMETER, USP_INVALID_DATA, USP_WRITE_ERROR,
   USP_TRANSPORT_ERROR_GENERIC, USP_AUTH_ERROR, USP_NO_CONNECTION_ERROR,
   USP_CONNECTION_TIMEOUT_ERROR]

/-- The four failure constants that report a transport condition. -/
def transportCodes : List Int :=
  [USP_TRANSPORT_ERROR_GENERIC, USP_AUTH_ERROR, USP_NO_CONNECTION_ERROR,
   USP_CONNECTION_TIMEOUT_ERROR]

/-- The whole result-code space: the success value and the failure constants. -/
def resultCodes : List Int := USP_SUCCESS :: failureCodes

/-- The category nibble of a code: its bits 4..7. -/
def categoryNibble (c : Int) : Int := c / 16 % 16

/-- The subcode of a code within its category: its bits 0..3. -/
def subcodeNibble (c : Int) : Int := c % 16

/-! ## Callback table and messages (usp.h, lines 93-171) -/

/-- Header line 20, `typedef void * UspHandle;`: an opaque session identity.
The model uses the index of the session in the registry of the engine. -/
abbrev UspHandle := Nat

/-- The `void* context` of the callbacks: an application value the engine
passes through unchanged. -/
abbrev Context := Nat

/-- The address of an application-defined callback function. -/
abbrev FnPtr := Nat

/-- The `uint8_t` of the audio buffers. -/
abbrev Byte := Fin 256

/-- Modelled from the spec: `uspmessages.h`, which declares the message types
`UspMsgSpeechStartDetected`, `UspMsgSpeechEndDetected`, `UspMsgSpeechHypothesis`,
`UspMsgSpeechPhrase`, `UspMsgTurnStart` and `UspMsgTurnEnd` named in the callback
typedefs, is absent.  Spec 3: an inbound message is "one of six typed variants
..., each carrying kind-specific fields (e.g., recognized text, offsets)"; the
payload is opaque to the engine, which routes on the kind only. -/
inductive UspMsg where
  | speechStartDetected (offset : Nat)
  | speechEndDetected (offset : Nat)
  | speechHypothesis (text : String)
  | speechPhrase (text : String)
  | turnStart
  | turnEnd
  deriving DecidableEq, Repr

/-- Header lines 160-171, `typedef struct _UspCallbacks`: `size`, `version`
(both `uint16_t`) and one function pointer per event; a `NULL` pointer is
`none`. -/
structure UspCallbacks where
  size : Nat
  version : Nat
  onSpeechStartDetected : Option FnPtr
  onSpeechEndDetected : Option FnPtr
  onSpeechHypothesis : Option FnPtr
  onSpeechPhrase : Option FnPtr
  onTurnStart : Option FnPtr
  onTurnEnd : Option FnPtr
  OnError : Option FnPtr
  deriving DecidableEq, Repr

/-- One call of an application callback, as the header types them:
`(UspHandle handle, void* context, UspMsg... *message)` for the six events and
`(UspHandle handle, void* context, UspResult error)` for `UspOnError`. -/
inductive Invocation where
  | event (fn : FnPtr) (handle : UspHandle) (context : Context) (message : UspMsg)
  | error (fn : FnPtr) (handle : UspHandle) (context : Context) (code : Int)
  deriving DecidableEq, Repr

/-! ## The client engine

The bodies of `UspInitialize`, `UspWrite`, `UspShutdown` and `UspRun` are not
part of the header; the definitions of this section follow the component
design of the specification (sections 4 and 7), as a sequential machine: one
call runs to completion before the next starts, and what the transport answers
to a call is an explicit argument of that call.  A result is given as the
constant the engine returns (`USP_SUCCESS`, `USP_INVALID_HANDLE`, ...); the
`int` the caller receives is `toUspResult` of it. -/

/-- Modelled from the spec: the lifecycle states of the session state machine
(spec 4.1; the engine source is absent): "`Uninitialized -> Initializing ->
Active -> ShuttingDown -> Terminated`, plus a terminal `Failed` state". -/
inductive SessionState where
  | Uninitialized
  | Initializing
  | Active
  | ShuttingDown
  | Terminated
  | Failed
  deriving DecidableEq, Repr

/-- Modelled from the spec: the transport conditions the result-code space
names (spec 6: "generic-transport-error, auth-error, no-connection,
connection-timeout"); the transport channel itself is an external
collaborator. -/
inductive TransportFault where
  | generic
  | auth
  | noConnection
  | connectionTimeout
  deriving DecidableEq, Repr

/-- The result code of a transport condition (usp.h, lines 75-90). -/
def TransportFault.code : TransportFault → Int
  | .generic => USP_TRANSPORT_ERROR_GENERIC
  | .auth => USP_AUTH_ERROR
  | .noConnection => USP_NO_CONNECTION_ERROR
  | .connectionTimeout => USP_CONNECTION_TIMEOUT_ERROR

/-- Modelled from the spec: what the transport channel (absent, external)
answers when the engine establishes it during `UspInitialize` (spec 4.1:
"establishes the Transport Channel (may fail with `InitializationFailure` or
`TransportError`)"). -/
inductive ConnectReply where
  | connected
  | failed
  | fault (f : TransportFault)
  deriving DecidableEq, Repr

/-- Modelled from the spec: what the transport channel (absent, external)
answers to the send of one `UspWrite` (spec 4.1: "On transport failure returns
`WriteError` or a transport-specific code; does not transition state on a
transient write error ..., but a detected fatal transport break moves the
handle toward `Failed`"; spec 5: "a transport-level timeout must surface as
`ConnectionTimeoutError`"). -/
inductive SendReply where
  | delivered
  | refused
  | timedOut
  | broken (f : TransportFault)
  deriving DecidableEq, Repr

/-- Modelled from the spec: what the run loop receives from the transport and
the message codec (both absent, external) in one iteration (spec 4.3, 4.4): a
decoded message, a message of a kind the engine does not know, bytes that do
not decode, or a transport error. -/
inductive Inbound where
  | message (m : UspMsg)
  | unknownKind
  | malformed
  | transportError (f : TransportFault)
  deriving DecidableEq, Repr

/-- Modelled from the spec: what the audio write pipeline hands to the codec
layer (absent, external): a frame of audio bytes, or the end-of-audio marker
of a zero-length write (spec 4.2: "the protocol distinguishes more audio from
audio stream ended"). -/
inductive AudioFrame where
  | audio (bytes : List Byte)
  | endOfAudio
  deriving DecidableEq, Repr

/-- Modelled from the spec: the state the engine keeps for one handle (spec 5:
"current lifecycle state, transport connection object, pending audio queue";
the engine source is absent).  `codec` is what the codec layer was handed and
`transport` the audio bytes that reached the transport channel, oldest first. -/
structure Session where
  state : SessionState
  callbacks : UspCallbacks
  context : Context
  codec : List AudioFrame
  transport : List Byte
  deriving DecidableEq, Repr

/-- Modelled from the spec: the engine (source absent): the registry that owns
the sessions (spec 9: "a typed session identifier (index into an owning
registry ...)"), and the calls of application callbacks made so far, oldest
first.  A handle is the index of its session; a session is never removed, so
no handle is issued twice (spec 3: "Not reusable after shutdown; a fresh
initialize must produce a new handle"). -/
structure Engine where
  sessions : List Session
  trace : List Invocation
  deriving DecidableEq, Repr

/-- Modelled from the spec: the two parameters the specification leaves to
the implementation (source absent): the framing limit of the transport (spec
4.2: "chunked per the transport's framing limits") and the test a callback
table passes at registration (spec 4.1: "plausible size/version"). -/
structure Config where
  frameLimit : Nat
  tableOk : UspCallbacks → Bool

/-- The engine before any call: no session, no callback invoked. -/
def Engine.empty : Engine := { sessions := [], trace := [] }

/-- Replace the session of a handle. -/
def Engine.setSession (e : Engine) (handle : UspHandle) (s : Session) : Engine :=
  { e with sessions := e.sessions.set handle s }

/-! ### Event dispatcher (spec 4.3) -/

/-- Modelled from the spec: the callback slot of a message kind (spec 4.3:
"looks up the corresponding callback by kind"; the dispatcher source is
absent).  The slots are the fields of `UspCallbacks`. -/
def slotFor (cb : UspCallbacks) : UspMsg → Option FnPtr
  | .speechStartDetected _ => cb.onSpeechStartDetected
  | .speechEndDetected _ => cb.onSpeechEndDetected
  | .speechHypothesis _ => cb.onSpeechHypothesis
  | .speechPhrase _ => cb.onSpeechPhrase
  | .turnStart => cb.onTurnStart
  | .turnEnd => cb.onTurnEnd

/-- Modelled from the spec: the event dispatcher on one decoded message
(source absent; spec 4.3: "if present, invokes it synchronously with `(handle,
context, message)`; if absent, discards the message (no error)"). -/
def dispatch (handle : UspHandle) (cb : UspCallbacks) (context : Context)
    (trace : List Invocation) (m : UspMsg) : List Invocation :=
  match slotFor cb m with
  | some fn => trace ++ [Invocation.event fn handle context m]
  | none => trace

/-- The dispatcher on a sequence of decoded messages, in the order received. -/
def dispatchAll (handle : UspHandle) (cb : UspCallbacks) (context : Context) :
    List Invocation → List UspMsg → List Invocation
  | trace, [] => trace
  | trace, m :: rest => dispatchAll handle cb context (dispatch handle cb context trace m) rest

/-- Modelled from the spec: the report of an asynchronous error (source
absent; spec 6: "one error slot (`onError(handle, context, errorCode)`). Every
slot is independently optional"). -/
def reportError (handle : UspHandle) (cb : UspCallbacks) (context : Context)
    (trace : List Invocation) (code : Int) : List Invocation :=
  match cb.OnError with
  | some fn => trace ++ [Invocation.error fn handle context code]
  | none => trace

/-! ### Audio write pipeline (spec 4.2) -/

/-- Modelled from the spec: the chunking of the audio write pipeline (source
absent; spec 4.2: "get bytes to the Transport Channel preserving caller order
with no gaps or duplication, chunked per the transport's framing limits").
Frames of `limit` bytes are cut from the front, the last one holding the rest;
a limit of zero stands for a transport without a limit.  The first argument
bounds the number of frames; `chunk` supplies the length of the input, which
is always enough. -/
def chunkFrames (limit : Nat) : Nat → List Byte → List (List Byte)
  | 0, _ => []
  | fuel + 1, bytes =>
    if bytes.length = 0 then []
    else if limit = 0 ∨ bytes.length ≤ limit then [bytes]
    else bytes.take limit :: chunkFrames limit fuel (bytes.drop limit)

/-- Modelled from the spec: the frames of one audio buffer (spec 4.2, source
absent), cut by `chunkFrames` with a bound that covers the whole buffer. -/
def chunk (limit : Nat) (bytes : List Byte) : List (List Byte) :=
  chunkFrames limit bytes.length bytes

/-- Modelled from the spec: what one accepted write hands to the codec layer
(source absent; spec 4.2: "A write of zero length is a valid no-op (useful as
an end-of-audio marker) and must be forwarded as such to the codec layer, not
silently dropped"): the end-of-audio marker for a zero-length write, the
frames of the buffer otherwise. -/
def framesOf (limit : Nat) (bytes : List Byte) (byteToWrite : Nat) : List AudioFrame :=
  if byteToWrite = 0 then [AudioFrame.endOfAudio]
  else (chunk limit bytes).map AudioFrame.audio

/-- The audio bytes of a frame as the transport carries them. -/
def AudioFrame.payload : AudioFrame → List Byte
  | .audio bytes => bytes
  | .endOfAudio => []

/-- Modelled from the spec: the session after an accepted write (source
absent): the frames go to the codec layer, which sends their bytes to the
transport frame by frame, in order. -/
def Session.forward (s : Session) (frames : List AudioFrame) : Session :=
  { s with
    codec := s.codec ++ frames
    transport := frames.foldl (fun sent f => sent ++ f.payload) s.transport }

/-- The bytes a write submits: the first `byteToWrite` bytes behind `buffer`
(`none` is the null pointer). -/
def submitted (buffer : Option (List Byte)) (byteToWrite : Nat) : List Byte :=
  match buffer with
  | some bytes => bytes.take byteToWrite
  | none => []

/-! ### Entry points (usp.h, lines 174-180) -/

/-- Modelled from the spec: whether the handle slot passed to `UspInitialize`
already holds a session that is being set up or is active (spec 4.1: "a
handle slot already active"; the engine source is absent). -/
def slotLive (e : Engine) : Option UspHandle → Bool
  | none => false
  | some h =>
    match e.sessions[h]? with
    | some s => s.state = SessionState.Initializing ∨ s.state = SessionState.Active
    | none => false

/-- Modelled from the spec: `UspResult UspInitialize(UspHandle* handle,
UspCallbacks *callbacks, void* callbackContext)` (declared at usp.h line 174,
body absent).  Spec 4.1: "Fails with `AlreadyInitialized` if called twice on a
handle slot already active. Validates the callback table (non-null table
pointer, plausible size/version) and fails with `InvalidParameter` otherwise.
On success allocates the handle, establishes the Transport Channel (may fail
with `InitializationFailure` or `TransportError`), and transitions to
`Active`."  `slot` is the content of `*handle` at the call; the second
component of the result is the handle issued. -/
def UspInitialize (cfg : Config) (e : Engine) (slot : Option UspHandle)
    (callbacks : Option UspCallbacks) (callbackContext : Context) (reply : ConnectReply) :
    Engine × Option UspHandle × Int :=
  if slotLive e slot then (e, none, USP_ALREADY_INTIALIZED)
  else
    match callbacks with
    | none => (e, none, USP_INVALID_PARAMETER)
    | some cb =>
      if cfg.tableOk cb then
        match reply with
        | .connected =>
          ({ e with sessions := e.sessions ++
                [{ state := SessionState.Active, callbacks := cb, context := callbackContext,
                   codec := [], transport := [] }] },
           some e.sessions.length, USP_SUCCESS)
        | .failed => (e, none, USP_INITIALIZATION_FAILURE)
        | .fault f => (e, none, f.code)
      else (e, none, USP_INVALID_PARAMETER)

/-- Modelled from the spec: `UspResult UspWrite(UspHandle handle, const
uint8_t* buffer, size_t byteToWrite)` (declared at usp.h line 176, body
absent).  Spec 4.1: "valid only in `Active`. Fails with `InvalidHandle` if the
handle is unknown/terminated, `Uninitialized` if called before initialize
completes, `InvalidParameter` if buffer is null with nonzero length. On
transport failure returns `WriteError` or a transport-specific code; does not
transition state on a transient write error (caller may retry), but a
detected fatal transport break moves the handle toward `Failed`."  Spec 5:
shutdown causes "any in-flight write to fail fast with `InvalidHandle`"; spec
7: after transport loss "no further writes succeed".  No branch invokes a
callback (spec 7: the result codes of `write` are synchronous). -/
def UspWrite (cfg : Config) (e : Engine) (handle : UspHandle) (buffer : Option (List Byte))
    (byteToWrite : Nat) (reply : SendReply) : Engine × Int :=
  match e.sessions[handle]? with
  | none => (e, USP_INVALID_HANDLE)
  | some s =>
    match s.state with
    | .Terminated => (e, USP_INVALID_HANDLE)
    | .ShuttingDown => (e, USP_INVALID_HANDLE)
    | .Uninitialized => (e, USP_UNINTIALIZED)
    | .Initializing => (e, USP_UNINTIALIZED)
    | .Failed => (e, USP_WRITE_ERROR)
    | .Active =>
      if buffer.isNone ∧ byteToWrite ≠ 0 then (e, USP_INVALID_PARAMETER)
      else
        match reply with
        | .delivered =>
          (e.setSession handle
              (s.forward (framesOf cfg.frameLimit (submitted buffer byteToWrite) byteToWrite)),
           USP_SUCCESS)
        | .refused => (e, USP_WRITE_ERROR)
        | .timedOut => (e, USP_CONNECTION_TIMEOUT_ERROR)
        | .broken f => (e.setSession handle { s with state := SessionState.Failed }, f.code)

/-- Modelled from the spec: `UspResult UspShutdown(UspHandle handle)`
(declared at usp.h line 178, body absent).  Spec 4.1: "valid from `Active`,
`Failed`, or `Initializing` ... a second call after the handle has fully
reached `Terminated` returns `InvalidHandle`. Moves state to `ShuttingDown`,
flushes/cancels the Audio Write Pipeline, closes the Transport Channel, ...
then `Terminated`"; spec 8: before initialize completes an operation fails
with `Uninitialized`.  Writes are consumed before they return, so nothing is
pending at shutdown; no callback is invoked (spec 7). -/
def UspShutdown (e : Engine) (handle : UspHandle) : Engine × Int :=
  match e.sessions[handle]? with
  | none => (e, USP_INVALID_HANDLE)
  | some s =>
    match s.state with
    | .Terminated => (e, USP_INVALID_HANDLE)
    | .ShuttingDown => (e, USP_INVALID_HANDLE)
    | .Uninitialized => (e, USP_UNINTIALIZED)
    | _ =>
      let closing : Session := { s with state := SessionState.ShuttingDown }
      (e.setSession handle { closing with state := SessionState.Terminated }, USP_SUCCESS)

/-- Modelled from the spec: the run loop on the inbound traffic of one call
(source absent; spec 4.4: "on inbound bytes, feed the Message Codec and route
completed messages to the Event Dispatcher; on transport error, invoke the
error callback with the appropriate code and transition the Session State
Machine toward `Failed`"; spec 4.3: unknown kinds "are discarded without
error", malformed data is "reported via the error callback with `InvalidData`,
not fatal to the session").  The loop ends at a transport error or when the
traffic given is used up. -/
def pump (handle : UspHandle) : Session → List Invocation → List Inbound → Session × List Invocation
  | s, trace, [] => (s, trace)
  | s, trace, .message m :: rest =>
    pump handle s (dispatch handle s.callbacks s.context trace m) rest
  | s, trace, .unknownKind :: rest => pump handle s trace rest
  | s, trace, .malformed :: rest =>
    pump handle s (reportError handle s.callbacks s.context trace USP_INVALID_DATA) rest
  | s, trace, .transportError f :: _ =>
    ({ s with state := SessionState.Failed },
     reportError handle s.callbacks s.context trace f.code)

/-- Modelled from the spec: `void UspRun(UspHandle handle)` (declared at
usp.h line 180, body absent).  Spec 4.1: "valid only in `Active`; drives the
Run Loop until shutdown or fatal failure".  The function returns `void`: the
result is the engine alone.  On a handle that is not active it returns at
once and invokes nothing (spec 7: "Local/caller-induced errors (invalid
parameter, invalid handle, wrong state) never invoke the error callback").
`events` is the inbound traffic the loop receives during the call. -/
def UspRun (e : Engine) (handle : UspHandle) (events : List Inbound) : Engine :=
  match e.sessions[handle]? with
  | none => e
  | some s =>
    match s.state with
    | .Active =>
      { sessions := e.sessions.set handle (pump handle s e.trace events).1
        trace := (pump handle s e.trace events).2 }
    | _ => e

/-! ### Sequences of calls -/

/-- One call of an entry point of the header, with what the transport answers
to it. -/
inductive Op where
  | init (slot : Option UspHandle) (callbacks : Option UspCallbacks) (context : Context)
      (reply : ConnectReply)
  | write (handle : UspHandle) (buffer : Option (List Byte)) (byteToWrite : Nat)
      (reply : SendReply)
  | run (handle : UspHandle) (events : List Inbound)
  | shutdown (handle : UspHandle)
  deriving DecidableEq, Repr

/-- The engine after a call and the `UspResult` the call returns; `none` for
`UspRun`, which returns `void`. -/
def step (cfg : Config) (e : Engine) : Op → Engine × Option Int
  | .init slot callbacks context reply =>
    ((UspInitialize cfg e slot callbacks context reply).1,
     some (UspInitialize cfg e slot callbacks context reply).2.2)
  | .write handle buffer byteToWrite reply =>
    ((UspWrite cfg e handle buffer byteToWrite reply).1,
     some (UspWrite cfg e handle buffer byteToWrite reply).2)
  | .run handle events => (UspRun e handle events, none)
  | .shutdown handle => ((UspShutdown e handle).1, some (UspShutdown e handle).2)

/-- The engine after a sequence of calls, made one after the other. -/
def runOps (cfg : Config) : Engine → List Op → Engine
  | e, [] => e
  | e, op :: ops => runOps cfg (step cfg e op).1 ops

/-- The results the calls of a sequence return, in order. -/
def results (cfg : Config) : Engine → List Op → List (Option Int)
  | _, [] => []
  | e, op :: ops => (step cfg e op).2 :: results cfg (step cfg e op).1 ops

/-- The error codes the engine passes to an error callback from position
`start` of the trace on. -/
def errorCodesFrom (start : Nat) (trace : List Invocation) : List Int :=
  (trace.drop start).filterMap fun i =>
    match i with
    | .error _ _ _ code => some code
    | .event _ _ _ _ => none

/-- A call fails with a result code when it returns that code to the
caller. -/
def FailsWith (cfg : Config) (e : Engine) (op : Op) (code : Int) : Prop :=
  (step cfg e op).2 = some code

/-! ### Concrete inputs -/

/-- The macro argument `0x1000 | 0x001`, two operands joined by `|`. -/
def splitArg : MacroArg := { first := 0x1000, rest := [(BitOp.bor, 0x001)] }


/-- A configuration: frames of at most four bytes, every table accepted. -/
def demoConfig : Config := { frameLimit := 4, tableOk := fun _ => true }

/-- A callback table that registers `onSpeechPhrase` and `OnError` only. -/
def phraseOnly : UspCallbacks :=
  { size := 0, version := 1,
    onSpeechStartDetected := none, onSpeechEndDetected := none, onSpeechHypothesis := none,
    onSpeechPhrase := some 11, onTurnStart := none, onTurnEnd := none, OnError := some 17 }

/-- The call that opens the first session, with context `7`. -/
def openFirst : Op := Op.init none (some phraseOnly) 7 ConnectReply.connected

/-- The engine with one active session, of handle `0`. -/
def oneActive : Engine := runOps demoConfig Engine.empty [openFirst]

/-- The engine after the session of handle `0` was opened and shut down. -/
def oneClosed : Engine := (UspShutdown oneActive 0).1

/-! ### Sequences, invariants and inputs of the contract -/

/-- One write call as the caller makes it.  `data bytes behind reply`: the
buffer pointer is not null, the memory behind it holds `bytes` followed by
`behind`, and `byteToWrite` is the length of `bytes`, so `bytes` is the
buffer submitted.  `null byteToWrite reply`: the buffer pointer is null.
`reply` is what the transport answers if the engine sends. -/
inductive WriteCall where
  | data (bytes behind : List Byte) (reply : SendReply)
  | null (byteToWrite : Nat) (reply : SendReply)
  deriving DecidableEq, Repr

/-- The call of `UspWrite` a write call stands for. -/
def WriteCall.op (h : UspHandle) : WriteCall → Op
  | .data bytes behind reply => Op.write h (some (bytes ++ behind)) bytes.length reply
  | .null byteToWrite reply => Op.write h none byteToWrite reply

/-- The buffer a write call submits; a null pointer submits no byte. -/
def WriteCall.bytes : WriteCall → List Byte
  | .data bytes _ _ => bytes
  | .null _ _ => []

/-- The length a write call announces. -/
def WriteCall.length : WriteCall → Nat
  | .data bytes _ _ => bytes.length
  | .null byteToWrite _ => byteToWrite

/-- A write call the engine can carry out: the transport delivers, and the
call is not a null buffer with a non-zero length. -/
def WriteCall.deliverable : WriteCall → Bool
  | .data _ _ reply => reply = SendReply.delivered
  | .null byteToWrite reply => byteToWrite = 0 ∧ reply = SendReply.delivered

/-- The buffers of the calls that returned `USP_SUCCESS`, concatenated in the
order of the calls; the second list holds the results of the calls. -/
def acceptedBytes : List WriteCall → List (Option Int) → List Byte
  | w :: ws, r :: rs => (if r = some USP_SUCCESS then w.bytes else []) ++ acceptedBytes ws rs
  | _, _ => []

/-- The number of zero-length calls that returned `USP_SUCCESS`. -/
def acceptedMarkers : List WriteCall → List (Option Int) → Nat
  | w :: ws, r :: rs =>
    (if r = some USP_SUCCESS ∧ w.length = 0 then 1 else 0) + acceptedMarkers ws rs
  | _, _ => 0

/-- Every session is in a state a handle can be observed in between two
calls: active, failed or terminated. -/
def Settled (e : Engine) : Prop :=
  ∀ s ∈ e.sessions, s.state = SessionState.Active ∨ s.state = SessionState.Failed ∨
    s.state = SessionState.Terminated

/-- The session of the handle exists and has reached `Terminated`. -/
def Closed (e : Engine) (h : UspHandle) : Prop :=
  ∃ s, e.sessions[h]? = some s ∧ s.state = SessionState.Terminated

/-- The engine after the calls `pre` from the start, a shutdown of `h`, and
the calls `post`. -/
def afterShutdown (cfg : Config) (pre : List Op) (h : UspHandle) (post : List Op) : Engine :=
  runOps cfg (UspShutdown (runOps cfg Engine.empty pre) h).1 post

/-- Three writes on handle `0`, the second refused by the transport. -/
def gapWrites : List WriteCall :=
  [WriteCall.data [1, 2] [] SendReply.delivered, WriteCall.data [3, 4] [] SendReply.refused,
   WriteCall.data [5] [] SendReply.delivered]

/-- Four writes on one handle: five bytes out of a buffer of six, one byte
that the transport refuses, the same byte again, and the zero-length write
that ends the audio. -/
def demoWrites : List WriteCall :=
  [WriteCall.data [1, 2, 3, 4, 5] [9] SendReply.delivered,
   WriteCall.data [6] [] SendReply.refused, WriteCall.data [6] [] SendReply.delivered,
   WriteCall.null 0 SendReply.delivered]

/-- The decoded sequence turn.start, speech.hypothesis, speech.phrase("hello"),
turn.end. -/
def demoMessages : List UspMsg :=
  [UspMsg.turnStart, UspMsg.speechHypothesis "hel", UspMsg.speechPhrase "hello", UspMsg.turnEnd]

/-! ## Result codes: proofs -/

/-- The difference with a full mask is the complement of the low bits. -/
theorem ldiff_mask (k m : Nat) : Nat.ldiff (2 ^ k - 1) m = 2 ^ k - 1 - m % 2 ^ k := by
  apply Nat.eq_of_testBit_eq
  intro i
  have h : m % 2 ^ k < 2 ^ k := Nat.mod_lt _ (by positivity)
  have e : 2 ^ k - 1 - m % 2 ^ k = 2 ^ k - (m % 2 ^ k + 1) := by omega
  rw [Nat.testBit_ldiff, e, Nat.testBit_two_pow_sub_succ h, Nat.testBit_two_pow_sub_one,
    Nat.testBit_mod_two_pow]
  cases decide (i < k) <;> simp

/-- The mask `x & 0x0fff` keeps the residue of `x` modulo 4096, for a
negative `x` as well. -/
theorem land_mask (x : Int) : Int.land x 0x0fff = x % 4096 := by
  cases x with
  | ofNat n =>
    show ((n &&& 4095 : Nat) : Int) = (n : Int) % 4096
    have := Nat.and_pow_two_sub_one_eq_mod n 12
    norm_num at this
    rw [this]; norm_cast
  | negSucc m =>
    show ((Nat.ldiff 4095 m : Nat) : Int) = Int.negSucc m % 4096
    have := ldiff_mask 12 m
    norm_num at this
    rw [this, Int.negSucc_eq]
    omega

/-- The bits of the fixed part and of a 12-bit subcode do not overlap. -/
theorem lor_fixed (y : Nat) (h : y < 4096) : 0x800f6000 ||| y = 0x800f6000 + y := by
  have := Nat.mul_add_lt_is_or (b := y) (i := 12) (by simpa using h) 0x800f6
  norm_num at this
  omega

/-- Clearing no bit changes nothing. -/
theorem ldiff_zero_right (m : Nat) : Nat.ldiff m 0 = m := by
  apply Nat.eq_of_testBit_eq
  intro i
  simp [Nat.testBit_ldiff]

/-- Zero is neutral for `|`. -/
theorem zero_lor_int (z : Int) : Int.lor 0 z = z := by
  cases z with
  | ofNat n => show ((0 ||| n : Nat) : Int) = (n : Int); simp
  | negSucc m => show Int.negSucc (Nat.ldiff m 0) = Int.negSucc m; rw [ldiff_zero_right]

/-- Zero is neutral for `^`. -/
theorem zero_xor_int (z : Int) : Int.xor 0 z = z := by
  cases z with
  | ofNat n => show ((0 ^^^ n : Nat) : Int) = (n : Int); simp
  | negSucc m => show Int.negSucc (0 ^^^ m) = Int.negSucc m; simp

/-- Bit 31 of a natural number, read off its residue modulo `2 ^ 32`. -/
theorem bit31_nat (z : Nat) : z.testBit 31 = decide (2 ^ 31 ≤ z % 2 ^ 32) := by
  rw [Nat.testBit_to_div_mod]
  norm_num
  omega

/-- The outer `0x800f6000 | (...)` sets bit 31 whatever the inner value is. -/
theorem lor_fixed_bit31 (y : Int) :
    2 ^ 31 ≤ bits32 (Int.lor 0x800f6000 y) ∧ bits32 (Int.lor 0x800f6000 y) < 2 ^ 32 := by
  unfold bits32
  refine ⟨?_, Int.emod_lt_of_pos _ (by norm_num)⟩
  cases y with
  | ofNat n =>
    show (2 : Int) ^ 31 ≤ ((0x800f6000 ||| n : Nat) : Int) % 2 ^ 32
    have h : (0x800f6000 ||| n).testBit 31 = true := by
      rw [Nat.testBit_lor]; simp; left; decide
    rw [bit31_nat] at h
    have := of_decide_eq_true h
    omega
  | negSucc m =>
    show (2 : Int) ^ 31 ≤ Int.negSucc (Nat.ldiff m 0x800f6000) % 2 ^ 32
    have h : (Nat.ldiff m 0x800f6000).testBit 31 = false := by
      rw [Nat.testBit_ldiff]
      have : Nat.testBit 0x800f6000 31 = true := by decide
      simp [this]
    rw [bit31_nat] at h
    have := of_decide_eq_false h
    rw [Int.negSucc_eq]
    omega

/-- The macro on any argument: an unsigned 32-bit value with bit 31 set. -/
theorem errcode_range (a : MacroArg) : 2 ^ 31 ≤ USP_ERRCODE a ∧ USP_ERRCODE a < 2 ^ 32 :=
  lor_fixed_bit31 _

/-- The closed form of the macro on an argument that is one operand. -/
theorem errcode_eq (x : Int) : USP_ERRCODE (MacroArg.primary x) = 0x800f6000 + x % 4096 := by
  unfold USP_ERRCODE MacroArg.primary
  simp only [List.nil_append, evalTokens]
  rw [zero_xor_int, zero_lor_int, land_mask]
  have h0 : 0 ≤ x % 4096 := Int.emod_nonneg _ (by norm_num)
  have h1 : x % 4096 < 4096 := Int.emod_lt_of_pos _ (by norm_num)
  obtain ⟨y, hy⟩ := Int.eq_ofNat_of_zero_le h0
  rw [hy] at h1 ⊢
  show bits32 ((0x800f6000 ||| y : Nat) : Int) = _
  rw [lor_fixed y (by omega)]
  unfold bits32
  omega

/-- The value of an argument that is one operand is that operand. -/
theorem eval_primary (x : Int) : MacroArg.eval (MacroArg.primary x) = x := by
  unfold MacroArg.eval MacroArg.primary
  simp only [evalTokens]
  rw [zero_xor_int, zero_lor_int]

/-- The token evaluator follows the precedence of C: `1 | 2 ^ 3 & 6` is
`1 | (2 ^ (3 & 6))`, `7 & 2 ^ 3 | 8` is `((7 & 2) ^ 3) | 8`, and `&`
associates to the left. -/
theorem evalTokens_precedence :
    MacroArg.eval { first := 1, rest := [(BitOp.bor, 2), (BitOp.bxor, 3), (BitOp.band, 6)] }
      = Int.lor 1 (Int.xor 2 (Int.land 3 6)) ∧
    MacroArg.eval { first := 7, rest := [(BitOp.band, 2), (BitOp.bxor, 3), (BitOp.bor, 8)] }
      = Int.lor (Int.xor (Int.land 7 2) 3) 8 ∧
    MacroArg.eval { first := 12, rest := [(BitOp.band, 10), (BitOp.band, 9)] }
      = Int.land (Int.land 12 10) 9 ∧
    MacroArg.eval { first := 1, rest := [(BitOp.bor, 2), (BitOp.bxor, 3), (BitOp.band, 6)] } = 1 ∧
    MacroArg.eval { first := 7, rest := [(BitOp.band, 2), (BitOp.bxor, 3), (BitOp.bor, 8)] } = 9 := by
  decide

/-- C1: the result code space is one success value and twelve named failure
constants, and the thirteen values are pairwise distinct as 32-bit values,
both as the unsigned patterns the macros produce and as the signed `int`
values a `UspResult` holds. -/
theorem result_codes_distinct :
    resultCodes = USP_SUCCESS :: failureCodes ∧ failureCodes.length = 12 ∧
    resultCodes.length = 13 ∧
    (resultCodes.map bits32).Nodup ∧ (resultCodes.map toUspResult).Nodup := by
  decide

/-- C2: zero is success and only success: `USP_SUCCESS` is 0, the value of
`USP_ERRCODE(x)` is non-zero for every integer `x`, also once stored in a
`UspResult`, and none of the twelve failure constants equals `USP_SUCCESS`.
The same holds for every argument expression, since the outer `|` of the
macro body is parenthesised. -/
theorem zero_is_success_only :
    USP_SUCCESS = 0 ∧
    (∀ x : Int, USP_ERRCODE (MacroArg.primary x) ≠ 0) ∧
    (∀ x : Int, bits32 (USP_ERRCODE (MacroArg.primary x)) ≠ 0) ∧
    (∀ x : Int, toUspResult (USP_ERRCODE (MacroArg.primary x)) ≠ USP_SUCCESS) ∧
    (∀ c ∈ failureCodes, c ≠ USP_SUCCESS ∧ toUspResult c ≠ USP_SUCCESS) ∧
    (∀ a : MacroArg, USP_ERRCODE a ≠ 0 ∧ bits32 (USP_ERRCODE a) ≠ 0 ∧
      toUspResult (USP_ERRCODE a) ≠ USP_SUCCESS) := by
  have hs : USP_SUCCESS = 0 := by decide
  have hall : ∀ a : MacroArg, USP_ERRCODE a ≠ 0 ∧ bits32 (USP_ERRCODE a) ≠ 0 ∧
      toUspResult (USP_ERRCODE a) ≠ USP_SUCCESS := by
    intro a
    have h := errcode_range a
    rw [hs]
    unfold bits32 toUspResult
    omega
  exact ⟨hs, fun x => (hall _).1, fun x => (hall _).2.1, fun x => (hall _).2.2, by decide, hall⟩

/-- C3: with the category nibble taken as bits 4..7 and the subcode as bits
0..3, the four transport codes share one category nibble (2), each of the
eight other named failure codes has a different one, the twelve constants are
pairwise distinct, and no two of the twelve agree on both category nibble and
subcode, so two named codes with the same nibble and subcode are the same
constant. -/
theorem transport_codes_one_category :
    (categoryNibble USP_TRANSPORT_ERROR_GENERIC = 2 ∧ categoryNibble USP_AUTH_ERROR = 2 ∧
      categoryNibble USP_NO_CONNECTION_ERROR = 2 ∧
      categoryNibble USP_CONNECTION_TIMEOUT_ERROR = 2) ∧
    (categoryNibble USP_NOT_IMPLEMENTED ≠ categoryNibble USP_TRANSPORT_ERROR_GENERIC ∧
      categoryNibble USP_UNINTIALIZED ≠ categoryNibble USP_TRANSPORT_ERROR_GENERIC ∧
      categoryNibble USP_ALREADY_INTIALIZED ≠ categoryNibble USP_TRANSPORT_ERROR_GENERIC ∧
      categoryNibble USP_INITIALIZATION_FAILURE ≠ categoryNibble USP_TRANSPORT_ERROR_GENERIC ∧
      categoryNibble USP_INVALID_HANDLE ≠ categoryNibble USP_TRANSPORT_ERROR_GENERIC ∧
      categoryNibble USP_INVALID_PARAMETER ≠ categoryNibble USP_TRANSPORT_ERROR_GENERIC ∧
      categoryNibble USP_INVALID_DATA ≠ categoryNibble USP_TRANSPORT_ERROR_GENERIC ∧
      categoryNibble USP_WRITE_ERROR ≠ categoryNibble USP_TRANSPORT_ERROR_GENERIC) ∧
    failureCodes.Nodup ∧
    (failureCodes.map fun c => (categoryNibble c, subcodeNibble c)).Nodup ∧
    (failureCodes.map fun c => (categoryNibble c, subcodeNibble c))
      = [(15, 15), (0, 1), (0, 2), (0, 3), (0, 4), (0, 5), (0, 6), (1, 0),
         (2, 0), (2, 1), (2, 2), (2, 3)] ∧
    (∀ c ∈ transportCodes, categoryNibble c = categoryNibble USP_TRANSPORT_ERROR_GENERIC) ∧
    (∀ c ∈ transportCodes, c ∈ failureCodes) ∧
    (∀ c ∈ failureCodes, c ∉ transportCodes →
      categoryNibble c ≠ categoryNibble USP_TRANSPORT_ERROR_GENERIC) ∧
    (∀ c ∈ failureCodes, ∀ d ∈ failureCodes,
      categoryNibble c = categoryNibble d → subcodeNibble c = subcodeNibble d → c = d) ∧
    (∀ c ∈ failureCodes, categoryNibble c = categoryNibble (toUspResult c) ∧
      subcodeNibble c = subcodeNibble (toUspResult c)) := by
  decide

/-- The statements of C8 on an argument that is one operand (a literal, an
identifier, a parenthesised expression). -/
theorem errcode_layout_primary (x : Int) :
    USP_ERRCODE (MacroArg.primary x) = 0x800f6000 + x % 4096 ∧
    USP_ERRCODE (MacroArg.primary x) / 4096 = 0x800f6 ∧
    USP_ERRCODE (MacroArg.primary x) % 4096 = x % 4096 ∧
    (0 ≤ USP_ERRCODE (MacroArg.primary x) ∧ USP_ERRCODE (MacroArg.primary x) < 2 ^ 32) ∧
    (∀ y : Int, y % 4096 = x % 4096 →
      USP_ERRCODE (MacroArg.primary y) = USP_ERRCODE (MacroArg.primary x)) ∧
    (0 ≤ x ∧ x ≤ 0xfff → Int.land (USP_ERRCODE (MacroArg.primary x)) 0xfff = x) ∧
    (∀ y : Int, 0 ≤ x ∧ x ≤ 0xfff → 0 ≤ y ∧ y ≤ 0xfff →
      USP_ERRCODE (MacroArg.primary x) = USP_ERRCODE (MacroArg.primary y) → x = y) ∧
    USP_ERRCODE (MacroArg.primary (USP_ERRCODE (MacroArg.primary x)))
      = USP_ERRCODE (MacroArg.primary x) := by
  have hx := errcode_eq x
  refine ⟨hx, ?_, ?_, ?_, ?_, ?_, ?_, ?_⟩
  · rw [hx]; omega
  · rw [hx]; omega
  · rw [hx]; omega
  · intro y hy
    rw [hx, errcode_eq y, hy]
  · intro h
    rw [land_mask, hx]; omega
  · intro y h1 h2 h
    rw [hx, errcode_eq y] at h; omega
  · rw [errcode_eq (USP_ERRCODE (MacroArg.primary x)), hx]; omega

/-- C8: the macro does not parenthesise its argument.  On the argument
`0x1000 | 0x001`, of value `0x1001`, the expansion is
`(0x800f6000 | (0x1000 | 0x001 & 0x0fff))`, which is `0x800f7001`: not
`0x800f6000 + (0x1001 mod 4096)`, its upper 20 bits are not `0x800f6`, and it
differs from the result for `0x001`, which has the same low 12 bits.  On
the same expression in parentheses, and on every argument that is one
operand, all of C8 holds. -/
theorem USP_ERRCODE_argument_not_parenthesised :
    splitArg = { first := 0x1000, rest := [(BitOp.bor, 0x001)] } ∧
    MacroArg.eval splitArg = 0x1001 ∧
    USP_ERRCODE splitArg = 0x800f7001 ∧
    USP_ERRCODE splitArg ≠ 0x800f6000 + MacroArg.eval splitArg % 4096 ∧
    USP_ERRCODE splitArg / 4096 ≠ 0x800f6 ∧
    (MacroArg.eval (MacroArg.primary 0x001) % 4096 = MacroArg.eval splitArg % 4096 ∧
      USP_ERRCODE (MacroArg.primary 0x001) ≠ USP_ERRCODE splitArg) ∧
    USP_ERRCODE (MacroArg.primary (MacroArg.eval splitArg)) = 0x800f6001 ∧
    (∀ x : Int,
      USP_ERRCODE (MacroArg.primary x) = 0x800f6000 + x % 4096 ∧
      USP_ERRCODE (MacroArg.primary x) / 4096 = 0x800f6 ∧
      USP_ERRCODE (MacroArg.primary x) % 4096 = x % 4096 ∧
      (0 ≤ USP_ERRCODE (MacroArg.primary x) ∧ USP_ERRCODE (MacroArg.primary x) < 2 ^ 32) ∧
      (∀ y : Int, y % 4096 = x % 4096 →
        USP_ERRCODE (MacroArg.primary y) = USP_ERRCODE (MacroArg.primary x)) ∧
      (0 ≤ x ∧ x ≤ 0xfff → Int.land (USP_ERRCODE (MacroArg.primary x)) 0xfff = x) ∧
      (∀ y : Int, 0 ≤ x ∧ x ≤ 0xfff → 0 ≤ y ∧ y ≤ 0xfff →
        USP_ERRCODE (MacroArg.primary x) = USP_ERRCODE (MacroArg.primary y) → x = y) ∧
      USP_ERRCODE (MacroArg.primary (USP_ERRCODE (MacroArg.primary x)))
        = USP_ERRCODE (MacroArg.primary x)) := by
  refine ⟨rfl, by decide, by decide, by decide, by decide, by decide, by decide, ?_⟩
  exact errcode_layout_primary

/-- C9: `UspResult` is a signed 32-bit `int`; every `USP_ERRCODE(x)` stored in
it is strictly negative, for every integer `x` and for every argument
expression, `USP_SUCCESS` is 0, and a result that is `USP_SUCCESS` or one of
the twelve failure constants is a failure exactly when it is negative. -/
theorem failure_iff_negative :
    (∀ v : Int, -2 ^ 31 ≤ toUspResult v ∧ toUspResult v < 2 ^ 31 ∧
      (toUspResult v - v) % 2 ^ 32 = 0) ∧
    (∀ x : Int, toUspResult (USP_ERRCODE (MacroArg.primary x)) < 0) ∧
    USP_SUCCESS = 0 ∧
    (∀ r ∈ resultCodes.map toUspResult, (r ∈ failureCodes.map toUspResult ↔ r < 0)) ∧
    (∀ r ∈ resultCodes.map toUspResult, (r ≠ USP_SUCCESS ↔ r < 0)) ∧
    (∀ a : MacroArg, toUspResult (USP_ERRCODE a) < 0) := by
  have hall : ∀ a : MacroArg, toUspResult (USP_ERRCODE a) < 0 := by
    intro a
    have h := errcode_range a
    unfold toUspResult
    omega
  refine ⟨?_, fun x => hall _, by decide, by decide, by decide, hall⟩
  intro v
  unfold toUspResult
  omega

/-! ## Engine: proofs -/

/-- Chunking loses and repeats nothing: the frames concatenate to the
buffer, whenever the bound on the number of frames is at least its length. -/
theorem chunkFrames_flatten (limit : Nat) :
    ∀ (fuel : Nat) (bytes : List Byte), bytes.length ≤ fuel →
      (chunkFrames limit fuel bytes).flatten = bytes := by
  intro fuel
  induction fuel with
  | zero =>
    intro bytes h
    have : bytes = [] := List.length_eq_zero.mp (by omega)
    simp [chunkFrames, this]
  | succ fuel ih =>
    intro bytes h
    unfold chunkFrames
    split
    · rename_i h0
      simp [List.length_eq_zero.mp h0]
    · split
      · simp
      · rename_i h0 h1
        have hl : (bytes.drop limit).length ≤ fuel := by
          rw [List.length_drop]; omega
        rw [List.flatten_cons, ih _ hl, List.take_append_drop]

/-- Every frame is non-empty and respects a positive framing limit. -/
theorem chunkFrames_bound (limit : Nat) (hpos : 0 < limit) :
    ∀ (fuel : Nat) (bytes : List Byte), ∀ f ∈ chunkFrames limit fuel bytes,
      0 < f.length ∧ f.length ≤ limit := by
  intro fuel
  induction fuel with
  | zero => intro bytes f hf; simp [chunkFrames] at hf
  | succ fuel ih =>
    intro bytes f hf
    unfold chunkFrames at hf
    split at hf
    · simp at hf
    · split at hf
      · rename_i h0 h1
        simp at hf
        subst hf
        omega
      · rename_i h0 h1
        rcases List.mem_cons.mp hf with rfl | hf
        · rw [List.length_take]; omega
        · exact ih _ f hf

/-- The frames of a buffer concatenate to the buffer. -/
theorem chunk_flatten (limit : Nat) (bytes : List Byte) : (chunk limit bytes).flatten = bytes :=
  chunkFrames_flatten limit bytes.length bytes (Nat.le_refl _)

/-- A zero-length write submits no byte. -/
theorem submitted_zero (buffer : Option (List Byte)) : submitted buffer 0 = [] := by
  cases buffer <;> simp [submitted]

/-- The bytes of the frames of a write are the bytes submitted. -/
theorem framesOf_payload (limit : Nat) (buffer : Option (List Byte)) (n : Nat) :
    ((framesOf limit (submitted buffer n) n).map AudioFrame.payload).flatten
      = submitted buffer n := by
  unfold framesOf
  split
  · rename_i h
    subst h
    simp [AudioFrame.payload, submitted_zero]
  · rw [List.map_map]
    have : (AudioFrame.payload ∘ AudioFrame.audio) = id := by
      funext b; rfl
    rw [this, List.map_id, chunk_flatten]

/-- Sending frame by frame appends the bytes of the frames in order. -/
theorem foldl_payload (frames : List AudioFrame) :
    ∀ sent : List Byte, frames.foldl (fun sent f => sent ++ f.payload) sent
      = sent ++ (frames.map AudioFrame.payload).flatten := by
  induction frames with
  | nil => intro sent; simp
  | cons f fs ih => intro sent; simp [ih, List.append_assoc]

/-- One write hands over an end-of-audio marker exactly when its length is
zero. -/
theorem framesOf_count (limit : Nat) (bytes : List Byte) (n : Nat) :
    (framesOf limit bytes n).count AudioFrame.endOfAudio = if n = 0 then 1 else 0 := by
  unfold framesOf
  split
  · simp
  · rw [List.count_eq_zero]
    simp

/-- The session stored for a known handle is the one read back. -/
theorem setSession_get (e : Engine) (h : UspHandle) (s s1 : Session)
    (hs : e.sessions[h]? = some s) : (e.setSession h s1).sessions[h]? = some s1 := by
  have hlt : h < e.sessions.length := (List.getElem?_eq_some_iff.mp hs).1
  simp [Engine.setSession, List.getElem?_set_self hlt]


/-- The dispatcher appends the invocations of the registered kinds, in
order. -/
theorem dispatchAll_eq (h : UspHandle) (cb : UspCallbacks) (ctx : Context) (msgs : List UspMsg) :
    ∀ trace : List Invocation, dispatchAll h cb ctx trace msgs
      = trace ++ msgs.filterMap
          (fun m => (slotFor cb m).map (fun fn => Invocation.event fn h ctx m)) := by
  induction msgs with
  | nil => intro trace; simp [dispatchAll]
  | cons m rest ih =>
    intro trace
    rw [dispatchAll, ih]
    unfold dispatch
    cases hm : slotFor cb m <;> simp [List.filterMap_cons, hm]

/-- The run loop leaves the state as it is or moves it to `Failed`. -/
theorem pump_state (h : UspHandle) (events : List Inbound) :
    ∀ (s : Session) (trace : List Invocation),
      (pump h s trace events).1.state = s.state ∨
      (pump h s trace events).1.state = SessionState.Failed := by
  induction events with
  | nil => intro s trace; simp [pump]
  | cons ev rest ih =>
    intro s trace
    cases ev with
    | message m => simpa [pump] using ih s _
    | unknownKind => simpa [pump] using ih s _
    | malformed => simpa [pump] using ih s _
    | transportError f => simp [pump]


/-- Storing a settled session keeps the registry settled. -/
theorem settled_set (e e1 : Engine) (h : UspHandle) (s : Session) (he : Settled e)
    (hs : s.state = SessionState.Active ∨ s.state = SessionState.Failed ∨
      s.state = SessionState.Terminated)
    (h1 : e1.sessions = e.sessions.set h s) : Settled e1 := by
  intro s1 hs1
  rw [h1] at hs1
  rcases List.mem_or_eq_of_mem_set hs1 with hm | rfl
  · exact he s1 hm
  · exact hs

/-- Between two calls no session is in a transient state. -/
theorem settled_step (cfg : Config) (e : Engine) (op : Op) (he : Settled e) :
    Settled (step cfg e op).1 := by
  cases op with
  | init slot callbacks context reply =>
    simp only [step, UspInitialize]
    split
    · exact he
    · split
      · exact he
      · split
        · split
          · intro s hs
            simp only [List.mem_append, List.mem_singleton] at hs
            rcases hs with hs | rfl
            · exact he s hs
            · exact Or.inl rfl
          · exact he
          · exact he
        · exact he
  | write handle buffer n reply =>
    simp only [step, UspWrite]
    split
    · exact he
    · split <;> try exact he
      split
      · exact he
      · rename_i _ s hs _ hact hv
        split
        · exact settled_set e _ handle _ he
            (Or.inl (by simpa [Session.forward] using hact)) rfl
        · exact he
        · exact he
        · exact settled_set e _ handle _ he (Or.inr (Or.inl rfl)) rfl
  | run handle events =>
    simp only [step, UspRun]
    split
    · exact he
    · split
      · rename_i _ s hs _ hact
        apply settled_set e _ handle _ he _ rfl
        rcases pump_state handle events s e.trace with hp | hp
        · exact Or.inl (hp.trans hact)
        · exact Or.inr (Or.inl hp)
      · exact he
  | shutdown handle =>
    simp only [step, UspShutdown]
    split
    · exact he
    · split <;> try exact he
      exact settled_set e _ handle _ he (Or.inr (Or.inr rfl)) rfl

/-- After any sequence of calls no session is in a transient state. -/
theorem settled_runOps (cfg : Config) (ops : List Op) :
    ∀ e : Engine, Settled e → Settled (runOps cfg e ops) := by
  induction ops with
  | nil => intro e he; exact he
  | cons op ops ih => intro e he; exact ih _ (settled_step cfg e op he)

/-- The engine without sessions is settled. -/
theorem settled_empty : Settled Engine.empty := by
  intro s hs
  simp [Engine.empty] at hs


/-- A call leaves a terminated session as it is. -/
theorem terminated_kept (cfg : Config) (e : Engine) (op : Op) (h : UspHandle) (s : Session)
    (hs : e.sessions[h]? = some s) (ht : s.state = SessionState.Terminated) :
    (step cfg e op).1.sessions[h]? = some s := by
  have hlt : h < e.sessions.length := (List.getElem?_eq_some_iff.mp hs).1
  have hset : ∀ (h2 : UspHandle) (s2 s3 : Session), e.sessions[h2]? = some s2 →
      s2.state ≠ SessionState.Terminated → (e.sessions.set h2 s3)[h]? = some s := by
    intro h2 s2 s3 h2s hne
    have hh : h2 ≠ h := by
      rintro rfl
      rw [hs] at h2s
      exact hne ((Option.some.inj h2s) ▸ ht)
    rw [List.getElem?_set_ne hh, hs]
  cases op with
  | init slot callbacks context reply =>
    simp only [step, UspInitialize]
    split
    · exact hs
    · split
      · exact hs
      · split
        · split
          · show (e.sessions ++ _)[h]? = some s
            rw [List.getElem?_append_left hlt, hs]
          · exact hs
          · exact hs
        · exact hs
  | write handle buffer n reply =>
    simp only [step, UspWrite]
    split
    · exact hs
    · split <;> try exact hs
      split
      · exact hs
      · rename_i _ s2 hs2 _ hact hv
        split
        · exact hset handle s2 _ hs2 (by rw [hact]; decide)
        · exact hs
        · exact hs
        · exact hset handle s2 _ hs2 (by rw [hact]; decide)
  | run handle events =>
    simp only [step, UspRun]
    split
    · exact hs
    · split
      · rename_i _ s2 hs2 _ hact
        exact hset handle s2 _ hs2 (by rw [hact]; decide)
      · exact hs
  | shutdown handle =>
    simp only [step, UspShutdown]
    split
    · exact hs
    · split <;> try exact hs
      rename_i _ s2 hs2 _ hnt _ _
      exact hset handle s2 _ hs2 hnt

/-- A terminated session stays terminated through any sequence of calls. -/
theorem closed_runOps (cfg : Config) (h : UspHandle) (ops : List Op) :
    ∀ e : Engine, Closed e h → Closed (runOps cfg e ops) h := by
  induction ops with
  | nil => intro e he; exact he
  | cons op ops ih =>
    intro e he
    obtain ⟨s, hs, ht⟩ := he
    exact ih _ ⟨s, terminated_kept cfg e op h s hs ht, ht⟩

/-- A shutdown of an issued handle leaves its session terminated. -/
theorem closed_of_shutdown (e : Engine) (h : UspHandle) (he : Settled e)
    (hh : h < e.sessions.length) : Closed (UspShutdown e h).1 h := by
  have hs : e.sessions[h]? = some (e.sessions[h]) := List.getElem?_eq_getElem hh
  have hst := he _ (List.getElem_mem hh)
  unfold UspShutdown
  rw [hs]
  rcases hst with h1 | h1 | h1
  · simp only [h1]
    refine ⟨{ e.sessions[h] with state := SessionState.Terminated }, ?_, rfl⟩
    simp [Engine.setSession, List.getElem?_set_self hh]
  · simp only [h1]
    refine ⟨{ e.sessions[h] with state := SessionState.Terminated }, ?_, rfl⟩
    simp [Engine.setSession, List.getElem?_set_self hh]
  · simp only [h1]
    exact ⟨_, hs, h1⟩

/-- The three operations on a handle whose session is terminated. -/
theorem closed_calls (cfg : Config) (e : Engine) (h : UspHandle) (hc : Closed e h)
    (buffer : Option (List Byte)) (n : Nat) (reply : SendReply) (events : List Inbound) :
    step cfg e (Op.write h buffer n reply) = (e, some USP_INVALID_HANDLE) ∧
    step cfg e (Op.shutdown h) = (e, some USP_INVALID_HANDLE) ∧
    step cfg e (Op.run h events) = (e, none) := by
  obtain ⟨s, hs, ht⟩ := hc
  refine ⟨?_, ?_, ?_⟩
  · simp [step, UspWrite, hs, ht]
  · simp [step, UspShutdown, hs, ht]
  · simp [step, UspRun, hs, ht]


/-! ## Engine: the contract -/

/-- C4, as stated, fails for `run`: handle `0` is issued, its shutdown
returns `USP_SUCCESS`, and a `UspRun` on it afterwards returns no result code
(the function is `void`), passes no code to the error callback, which is
registered, and leaves the engine as it was; it does not fail with
`USP_INVALID_HANDLE`. -/
theorem run_after_shutdown_returns_no_code :
    oneClosed = afterShutdown demoConfig [openFirst] 0 [] ∧
    0 < (runOps demoConfig Engine.empty [openFirst]).sessions.length ∧
    (UspShutdown oneActive 0).2 = USP_SUCCESS ∧
    (oneClosed.sessions[0]?).map (fun s => s.callbacks.OnError) = some (some 17) ∧
    step demoConfig oneClosed (Op.run 0 [Inbound.malformed]) = (oneClosed, none) ∧
    errorCodesFrom oneClosed.trace.length
      (step demoConfig oneClosed (Op.run 0 [Inbound.malformed])).1.trace = [] ∧
    ¬ FailsWith demoConfig oneClosed (Op.run 0 [Inbound.malformed]) USP_INVALID_HANDLE := by
  refine ⟨rfl, by decide, by decide, by decide, by decide, by decide, ?_⟩
  unfold FailsWith
  decide

/-- C4, amended: after the shutdown of an issued handle has returned,
whatever calls came before and whatever calls follow, a write and a shutdown
on that handle return `USP_INVALID_HANDLE`, and a run, which is `void`,
returns at once with no result code; none of the three changes the engine,
so none invokes a callback. -/
theorem after_shutdown_invalid_handle (cfg : Config) (pre post : List Op) (h : UspHandle)
    (hh : h < (runOps cfg Engine.empty pre).sessions.length)
    (buffer : Option (List Byte)) (n : Nat) (reply : SendReply) (events : List Inbound) :
    FailsWith cfg (afterShutdown cfg pre h post) (Op.write h buffer n reply) USP_INVALID_HANDLE ∧
    FailsWith cfg (afterShutdown cfg pre h post) (Op.shutdown h) USP_INVALID_HANDLE ∧
    (step cfg (afterShutdown cfg pre h post) (Op.write h buffer n reply)).1
      = afterShutdown cfg pre h post ∧
    (step cfg (afterShutdown cfg pre h post) (Op.shutdown h)).1
      = afterShutdown cfg pre h post ∧
    step cfg (afterShutdown cfg pre h post) (Op.run h events)
      = (afterShutdown cfg pre h post, none) := by
  have hc : Closed (afterShutdown cfg pre h post) h :=
    closed_runOps cfg h post _
      (closed_of_shutdown _ h (settled_runOps cfg pre _ settled_empty) hh)
  obtain ⟨h1, h2, h3⟩ := closed_calls cfg _ h hc buffer n reply events
  refine ⟨?_, ?_, ?_, ?_, h3⟩
  · unfold FailsWith; rw [h1]
  · unfold FailsWith; rw [h2]
  · rw [h1]
  · rw [h2]

/-- C4, amended, at a concrete input: a session is opened, written to and
run; handle `0` is shut down; a second session is opened; then the three
operations are tried on handle `0`. -/
theorem after_shutdown_invalid_handle_witness :
    0 < (runOps demoConfig Engine.empty
          [openFirst, Op.write 0 (some [1, 2]) 2 SendReply.delivered,
           Op.run 0 [Inbound.message (UspMsg.speechPhrase "hello")]]).sessions.length ∧
    FailsWith demoConfig
      (afterShutdown demoConfig
        [openFirst, Op.write 0 (some [1, 2]) 2 SendReply.delivered,
         Op.run 0 [Inbound.message (UspMsg.speechPhrase "hello")]] 0 [openFirst])
      (Op.write 0 (some [3]) 1 SendReply.delivered) USP_INVALID_HANDLE ∧
    FailsWith demoConfig
      (afterShutdown demoConfig
        [openFirst, Op.write 0 (some [1, 2]) 2 SendReply.delivered,
         Op.run 0 [Inbound.message (UspMsg.speechPhrase "hello")]] 0 [openFirst])
      (Op.shutdown 0) USP_INVALID_HANDLE :=
  ⟨by decide,
   (after_shutdown_invalid_handle demoConfig _ [openFirst] 0 (by decide) (some [3]) 1
      SendReply.delivered []).1,
   (after_shutdown_invalid_handle demoConfig _ [openFirst] 0 (by decide) (some [3]) 1
      SendReply.delivered []).2.1⟩

/-- On decoded messages alone the run loop is the dispatcher. -/
theorem pump_messages (h : UspHandle) (msgs : List UspMsg) :
    ∀ (s : Session) (trace : List Invocation),
      pump h s trace (msgs.map Inbound.message)
        = (s, dispatchAll h s.callbacks s.context trace msgs) := by
  induction msgs with
  | nil => intro s trace; simp [pump, dispatchAll]
  | cons m rest ih => intro s trace; simp [pump, dispatchAll, ih]

/-- No invocation of the dispatcher is an error callback. -/
theorem events_no_error (h : UspHandle) (cb : UspCallbacks) (ctx : Context)
    (msgs : List UspMsg) :
    (msgs.filterMap
        (fun m => (slotFor cb m).map (fun fn => Invocation.event fn h ctx m))).filterMap
      (fun i => match i with
        | Invocation.error _ _ _ code => some code
        | Invocation.event _ _ _ _ => none) = [] := by
  induction msgs with
  | nil => simp
  | cons m rest ih =>
    cases hm : slotFor cb m <;> simp [List.filterMap_cons, hm, ih]

/-- C6: for every sequence of decoded messages and every callback table, the
dispatcher appends to the calls made so far exactly the callbacks of the
messages whose kind has a registered slot, in receipt order, each with the
handle, the context and the message; a message without a slot adds nothing,
and no error callback is invoked.  The run loop of an active session routes
its messages through the dispatcher with the table and the context given at
`UspInitialize`.  With only `onSpeechPhrase` and `OnError` registered, the
sequence turn.start, speech.hypothesis, speech.phrase("hello"), turn.end
gives one invocation, `onSpeechPhrase` with "hello". -/
theorem dispatch_in_receipt_order (h : UspHandle) (cb : UspCallbacks) (ctx : Context)
    (trace : List Invocation) (msgs : List UspMsg) :
    dispatchAll h cb ctx trace msgs
      = trace ++ (msgs.filter (fun m => (slotFor cb m).isSome)).filterMap
          (fun m => (slotFor cb m).map (fun fn => Invocation.event fn h ctx m)) ∧
    ((dispatchAll h cb ctx trace msgs).drop trace.length).length
      = (msgs.filter (fun m => (slotFor cb m).isSome)).length ∧
    (∀ m, slotFor cb m = none → dispatch h cb ctx trace m = trace) ∧
    (∀ m fn, slotFor cb m = some fn →
      dispatch h cb ctx trace m = trace ++ [Invocation.event fn h ctx m]) ∧
    errorCodesFrom trace.length (dispatchAll h cb ctx trace msgs) = [] ∧
    (∀ (e : Engine) (s : Session), e.sessions[h]? = some s → s.state = SessionState.Active →
      (UspRun e h (msgs.map Inbound.message)).trace
        = dispatchAll h s.callbacks s.context e.trace msgs) ∧
    dispatchAll 0 phraseOnly 7 [] demoMessages
      = [Invocation.event 11 0 7 (UspMsg.speechPhrase "hello")] ∧
    (UspRun oneActive 0 (demoMessages.map Inbound.message)).trace
      = [Invocation.event 11 0 7 (UspMsg.speechPhrase "hello")] := by
  have hfm : msgs.filterMap
        (fun m => (slotFor cb m).map (fun fn => Invocation.event fn h ctx m))
      = (msgs.filter (fun m => (slotFor cb m).isSome)).filterMap
        (fun m => (slotFor cb m).map (fun fn => Invocation.event fn h ctx m)) := by
    induction msgs with
    | nil => simp
    | cons m rest ih =>
      cases hm : slotFor cb m <;> simp [List.filterMap_cons, List.filter_cons, hm, ih]
  have hlen : ((msgs.filter (fun m => (slotFor cb m).isSome)).filterMap
        (fun m => (slotFor cb m).map (fun fn => Invocation.event fn h ctx m))).length
      = (msgs.filter (fun m => (slotFor cb m).isSome)).length := by
    clear hfm
    induction msgs with
    | nil => simp
    | cons m rest ih =>
      cases hm : slotFor cb m <;> simp [List.filterMap_cons, List.filter_cons, hm, ih]
  have heq := dispatchAll_eq h cb ctx msgs trace
  refine ⟨by rw [heq, hfm], ?_, ?_, ?_, ?_, ?_, by decide, by decide⟩
  · rw [heq, hfm, List.drop_left, hlen]
  · intro m hm
    simp [dispatch, hm]
  · intro m fn hm
    simp [dispatch, hm]
  · rw [heq]
    unfold errorCodesFrom
    rw [List.drop_left]
    exact events_no_error h cb ctx msgs
  · intro e s hs hact
    simp [UspRun, hs, hact, pump_messages]

/-- C7: a write on an active handle with a null buffer and a non-zero length
returns `USP_INVALID_PARAMETER` and leaves the engine as it was, whatever the
transport would answer: the session, its state and the bytes at the
transport are unchanged, and no callback is invoked, the error callback
included. -/
theorem null_buffer_write_rejected (cfg : Config) (e : Engine) (h : UspHandle) (s : Session)
    (n : Nat) (reply : SendReply)
    (hs : e.sessions[h]? = some s) (hact : s.state = SessionState.Active) (hn : n ≠ 0) :
    UspWrite cfg e h none n reply = (e, USP_INVALID_PARAMETER) ∧
    (UspWrite cfg e h none n reply).1.sessions[h]? = some s ∧
    (UspWrite cfg e h none n reply).1.trace = e.trace ∧
    errorCodesFrom e.trace.length (UspWrite cfg e h none n reply).1.trace = [] := by
  have hw : UspWrite cfg e h none n reply = (e, USP_INVALID_PARAMETER) := by
    simp [UspWrite, hs, hact, hn]
  rw [hw]
  refine ⟨rfl, hs, rfl, ?_⟩
  simp [errorCodesFrom]

/-- C7 at a concrete input: three bytes announced behind a null pointer, on
the active handle `0`. -/
theorem null_buffer_write_rejected_witness :
    (oneActive.sessions[0]?).map (fun s => s.state) = some SessionState.Active ∧
    UspWrite demoConfig oneActive 0 none 3 SendReply.delivered
      = (oneActive, USP_INVALID_PARAMETER) :=
  ⟨by decide,
   (null_buffer_write_rejected demoConfig oneActive 0
      { state := SessionState.Active, callbacks := phraseOnly, context := 7,
        codec := [], transport := [] }
      3 SendReply.delivered (by decide) rfl (by decide)).1⟩

/-! ## Audio writes: proofs -/

/-- The sequence of calls splits at any point. -/
theorem runOps_append (cfg : Config) (xs ys : List Op) :
    ∀ e : Engine, runOps cfg e (xs ++ ys) = runOps cfg (runOps cfg e xs) ys := by
  induction xs with
  | nil => intro e; rfl
  | cons x xs ih => intro e; simp [runOps, ih]

/-- The results of a sequence of calls split at any point. -/
theorem results_append (cfg : Config) (xs ys : List Op) :
    ∀ e : Engine, results cfg e (xs ++ ys)
      = results cfg e xs ++ results cfg (runOps cfg e xs) ys := by
  induction xs with
  | nil => intro e; rfl
  | cons x xs ih => intro e; simp [runOps, results, ih]

/-- Every call returns one result. -/
theorem results_length (cfg : Config) (ops : List Op) :
    ∀ e : Engine, (results cfg e ops).length = ops.length := by
  induction ops with
  | nil => intro e; rfl
  | cons x xs ih => intro e; simp [results, ih]

/-- No failure constant a write returns is the success value. -/
theorem write_failures_ne_success :
    USP_INVALID_PARAMETER ≠ USP_SUCCESS ∧ USP_WRITE_ERROR ≠ USP_SUCCESS ∧
    USP_CONNECTION_TIMEOUT_ERROR ≠ USP_SUCCESS ∧
    ∀ f : TransportFault, f.code ≠ USP_SUCCESS := by
  refine ⟨by decide, by decide, by decide, ?_⟩
  intro f
  cases f <;> decide

/-- One write call on a handle that is active or failed: either it returns
`USP_SUCCESS`, the handle was active and stays so, and the frames of the
buffer go to the codec layer and its bytes to the transport; or it returns
something else and neither the codec layer nor the transport receives
anything.  No callback is invoked. -/
theorem write_step (cfg : Config) (e : Engine) (h : UspHandle) (s : Session) (w : WriteCall)
    (hs : e.sessions[h]? = some s)
    (hst : s.state = SessionState.Active ∨ s.state = SessionState.Failed) :
    ∃ s1, (step cfg e (w.op h)).1.sessions[h]? = some s1 ∧
      (step cfg e (w.op h)).1.trace = e.trace ∧
      (s1.state = SessionState.Active ∨ s1.state = SessionState.Failed) ∧
      (((step cfg e (w.op h)).2 = some USP_SUCCESS ∧ s.state = SessionState.Active ∧
          s1.state = SessionState.Active ∧
          s1.transport = s.transport ++ w.bytes ∧
          s1.codec = s.codec ++ framesOf cfg.frameLimit w.bytes w.length) ∨
       ((step cfg e (w.op h)).2 ≠ some USP_SUCCESS ∧ s1.transport = s.transport ∧
          s1.codec = s.codec)) := by
  obtain ⟨hp, hw, ht, hf⟩ := write_failures_ne_success
  have hfail : ∀ c : Int, c ≠ USP_SUCCESS → (some c : Option Int) ≠ some USP_SUCCESS :=
    fun c hc hcs => hc (Option.some.inj hcs)
  rcases hst with hact | hfailed
  · cases w with
    | data bytes behind reply =>
      have hsub : submitted (some (bytes ++ behind)) bytes.length = bytes := by
        simp [submitted, List.take_left]
      cases reply with
      | delivered =>
        refine ⟨s.forward (framesOf cfg.frameLimit bytes bytes.length), ?_, ?_, Or.inl hact,
          Or.inl ⟨?_, hact, hact, ?_, rfl⟩⟩
        · simp only [WriteCall.op, step, UspWrite, hs, hact, hsub]
          simpa using setSession_get e h s _ hs
        · simp [WriteCall.op, step, UspWrite, hs, hact, Engine.setSession]
        · simp [WriteCall.op, step, UspWrite, hs, hact]
        · have := framesOf_payload cfg.frameLimit (some (bytes ++ behind)) bytes.length
          rw [hsub] at this
          simp [Session.forward, foldl_payload, this, WriteCall.bytes]
      | refused =>
        refine ⟨s, ?_, ?_, Or.inl hact, Or.inr ⟨?_, rfl, rfl⟩⟩
        · simp [WriteCall.op, step, UspWrite, hs, hact]
        · simp [WriteCall.op, step, UspWrite, hs, hact]
        · simpa [WriteCall.op, step, UspWrite, hs, hact] using hw
      | timedOut =>
        refine ⟨s, ?_, ?_, Or.inl hact, Or.inr ⟨?_, rfl, rfl⟩⟩
        · simp [WriteCall.op, step, UspWrite, hs, hact]
        · simp [WriteCall.op, step, UspWrite, hs, hact]
        · simpa [WriteCall.op, step, UspWrite, hs, hact] using ht
      | broken f =>
        refine ⟨{ s with state := SessionState.Failed }, ?_, ?_, Or.inr rfl,
          Or.inr ⟨?_, rfl, rfl⟩⟩
        · simp only [WriteCall.op, step, UspWrite, hs, hact]
          simpa using setSession_get e h s _ hs
        · simp [WriteCall.op, step, UspWrite, hs, hact, Engine.setSession]
        · simpa [WriteCall.op, step, UspWrite, hs, hact] using hf f
    | null n reply =>
      by_cases hn : n = 0
      · subst hn
        cases reply with
        | delivered =>
          refine ⟨s.forward (framesOf cfg.frameLimit [] 0), ?_, ?_, Or.inl hact,
            Or.inl ⟨?_, hact, hact, ?_, rfl⟩⟩
          · simp only [WriteCall.op, step, UspWrite, hs, hact, submitted]
            simpa using setSession_get e h s _ hs
          · simp [WriteCall.op, step, UspWrite, hs, hact, Engine.setSession]
          · simp [WriteCall.op, step, UspWrite, hs, hact]
          · simp [Session.forward, framesOf, AudioFrame.payload, WriteCall.bytes]
        | refused =>
          refine ⟨s, ?_, ?_, Or.inl hact, Or.inr ⟨?_, rfl, rfl⟩⟩
          · simp [WriteCall.op, step, UspWrite, hs, hact]
          · simp [WriteCall.op, step, UspWrite, hs, hact]
          · simpa [WriteCall.op, step, UspWrite, hs, hact] using hw
        | timedOut =>
          refine ⟨s, ?_, ?_, Or.inl hact, Or.inr ⟨?_, rfl, rfl⟩⟩
          · simp [WriteCall.op, step, UspWrite, hs, hact]
          · simp [WriteCall.op, step, UspWrite, hs, hact]
          · simpa [WriteCall.op, step, UspWrite, hs, hact] using ht
        | broken f =>
          refine ⟨{ s with state := SessionState.Failed }, ?_, ?_, Or.inr rfl,
            Or.inr ⟨?_, rfl, rfl⟩⟩
          · simp only [WriteCall.op, step, UspWrite, hs, hact]
            simpa using setSession_get e h s _ hs
          · simp [WriteCall.op, step, UspWrite, hs, hact, Engine.setSession]
          · simpa [WriteCall.op, step, UspWrite, hs, hact] using hf f
      · refine ⟨s, ?_, ?_, Or.inl hact, Or.inr ⟨?_, rfl, rfl⟩⟩
        · simp [WriteCall.op, step, UspWrite, hs, hact, hn]
        · simp [WriteCall.op, step, UspWrite, hs, hact, hn]
        · simpa [WriteCall.op, step, UspWrite, hs, hact, hn] using hp
  · refine ⟨s, ?_, ?_, Or.inr hfailed, Or.inr ⟨?_, rfl, rfl⟩⟩
    · cases w <;> simp [WriteCall.op, step, UspWrite, hs, hfailed]
    · cases w <;> simp [WriteCall.op, step, UspWrite, hs, hfailed]
    · cases w <;> simpa [WriteCall.op, step, UspWrite, hs, hfailed] using hw

/-- The frames of a write call carry the buffer it submits. -/
theorem framesOf_payload_call (limit : Nat) (w : WriteCall) :
    ((framesOf limit w.bytes w.length).map AudioFrame.payload).flatten = w.bytes := by
  have hmap : ∀ bytes : List Byte,
      (((chunk limit bytes).map AudioFrame.audio).map AudioFrame.payload).flatten = bytes := by
    intro bytes
    rw [List.map_map]
    have : (AudioFrame.payload ∘ AudioFrame.audio) = id := by
      funext b; rfl
    rw [this, List.map_id, chunk_flatten]
  cases w with
  | data bytes behind reply =>
    simp only [WriteCall.bytes, WriteCall.length, framesOf]
    split
    · rename_i h0
      simp [AudioFrame.payload, List.length_eq_zero.mp h0]
    · exact hmap bytes
  | null n reply =>
    simp only [WriteCall.bytes, WriteCall.length, framesOf]
    split
    · simp [AudioFrame.payload]
    · exact hmap []

/-- A sequence of write calls on a handle that is active or failed: the
transport and the codec layer receive the buffers of the calls that return
`USP_SUCCESS`, in order, and nothing else. -/
theorem writes_any (cfg : Config) (h : UspHandle) (ws : List WriteCall) :
    ∀ (e : Engine) (s : Session), e.sessions[h]? = some s →
      (s.state = SessionState.Active ∨ s.state = SessionState.Failed) →
      ∃ s1, (runOps cfg e (ws.map (WriteCall.op h))).sessions[h]? = some s1 ∧
        (runOps cfg e (ws.map (WriteCall.op h))).trace = e.trace ∧
        (s1.state = SessionState.Active ∨ s1.state = SessionState.Failed) ∧
        s1.transport
          = s.transport ++ acceptedBytes ws (results cfg e (ws.map (WriteCall.op h))) ∧
        (s1.codec.map AudioFrame.payload).flatten
          = (s.codec.map AudioFrame.payload).flatten ++
            acceptedBytes ws (results cfg e (ws.map (WriteCall.op h))) ∧
        s1.codec.count AudioFrame.endOfAudio
          = s.codec.count AudioFrame.endOfAudio +
            acceptedMarkers ws (results cfg e (ws.map (WriteCall.op h))) := by
  induction ws with
  | nil =>
    intro e s hs hst
    exact ⟨s, by simpa [runOps] using hs, by simp [runOps], hst,
      by simp [acceptedBytes], by simp [acceptedBytes], by simp [acceptedMarkers]⟩
  | cons w ws ih =>
    intro e s hs hst
    obtain ⟨s1, h1, h2, h3, h4⟩ := write_step cfg e h s w hs hst
    obtain ⟨s2, k1, k2, k3, k4, k5, k6⟩ := ih (step cfg e (w.op h)).1 s1 h1 h3
    refine ⟨s2, by simpa [runOps] using k1, by simpa [runOps, h2] using k2, k3, ?_, ?_, ?_⟩
    · simp only [List.map_cons, results, acceptedBytes]
      rcases h4 with ⟨hr, _, _, ht, _⟩ | ⟨hr, ht, _⟩
      · rw [k4, ht, if_pos hr, List.append_assoc]
      · rw [k4, ht, if_neg hr, List.nil_append]
    · simp only [List.map_cons, results, acceptedBytes]
      rcases h4 with ⟨hr, _, _, _, hc⟩ | ⟨hr, _, hc⟩
      · rw [k5, hc, if_pos hr, List.map_append, List.flatten_append, framesOf_payload_call,
          List.append_assoc]
      · rw [k5, hc, if_neg hr, List.nil_append]
    · simp only [List.map_cons, results, acceptedMarkers]
      rcases h4 with ⟨hr, _, _, _, hc⟩ | ⟨hr, _, hc⟩
      · rw [k6, hc, List.count_append, framesOf_count]
        by_cases h0 : w.length = 0
        · simp [hr, h0, Nat.add_assoc]
        · simp [h0, Nat.add_assoc]
      · rw [k6, hc]
        simp [hr]

/-- A deliverable call on an active handle returns `USP_SUCCESS`. -/
theorem write_step_deliverable (cfg : Config) (e : Engine) (h : UspHandle) (s : Session)
    (w : WriteCall) (hs : e.sessions[h]? = some s) (hact : s.state = SessionState.Active)
    (hd : w.deliverable = true) : (step cfg e (w.op h)).2 = some USP_SUCCESS := by
  cases w with
  | data bytes behind reply =>
    simp only [WriteCall.deliverable, decide_eq_true_eq] at hd
    subst hd
    simp [WriteCall.op, step, UspWrite, hs, hact]
  | null n reply =>
    simp only [WriteCall.deliverable, decide_eq_true_eq] at hd
    obtain ⟨rfl, rfl⟩ := hd
    simp [WriteCall.op, step, UspWrite, hs, hact]

/-- When every call is deliverable, every call returns `USP_SUCCESS`. -/
theorem writes_deliverable (cfg : Config) (h : UspHandle) (ws : List WriteCall) :
    ∀ (e : Engine) (s : Session), e.sessions[h]? = some s → s.state = SessionState.Active →
      (∀ w ∈ ws, w.deliverable = true) →
      results cfg e (ws.map (WriteCall.op h)) = ws.map (fun _ => some USP_SUCCESS) := by
  induction ws with
  | nil => intro e s _ _ _; rfl
  | cons w ws ih =>
    intro e s hs hact hd
    have hr := write_step_deliverable cfg e h s w hs hact (hd w (List.mem_cons_self _ _))
    obtain ⟨s1, h1, _, _, h4⟩ := write_step cfg e h s w hs (Or.inl hact)
    have hact1 : s1.state = SessionState.Active := by
      rcases h4 with ⟨_, _, ha, _⟩ | ⟨hne, _⟩
      · exact ha
      · exact absurd hr hne
    simp only [List.map_cons, results, hr]
    rw [ih _ s1 h1 hact1 (fun w1 hw1 => hd w1 (List.mem_cons_of_mem _ hw1))]

/-- When every call returned `USP_SUCCESS`, the accepted bytes are all the
buffers. -/
theorem acceptedBytes_all (ws : List WriteCall) :
    acceptedBytes ws (ws.map (fun _ => some USP_SUCCESS)) = (ws.map WriteCall.bytes).flatten := by
  induction ws with
  | nil => rfl
  | cons w ws ih =>
    simp only [List.map_cons, acceptedBytes, List.flatten_cons]
    rw [if_pos trivial, ih]

/-- C5, as stated, fails when the transport refuses a write: on the active
handle `0` the writes `[1, 2]` (delivered), `[3, 4]` (refused) and `[5]`
(delivered) return `USP_SUCCESS`, `USP_WRITE_ERROR`, `USP_SUCCESS`, the
handle stays active, and the transport holds `[1, 2, 5]`, not the
concatenation `[1, 2, 3, 4, 5]` of the submitted buffers. -/
theorem refused_write_not_at_transport :
    (oneActive.sessions[0]?).map (fun s => (s.state, s.transport))
      = some (SessionState.Active, []) ∧
    results demoConfig oneActive (gapWrites.map (WriteCall.op 0))
      = [some USP_SUCCESS, some USP_WRITE_ERROR, some USP_SUCCESS] ∧
    (gapWrites.map WriteCall.bytes).flatten = [1, 2, 3, 4, 5] ∧
    ((runOps demoConfig oneActive (gapWrites.map (WriteCall.op 0))).sessions[0]?).map
        (fun s => (s.state, s.transport))
      = some (SessionState.Active, [1, 2, 5]) ∧
    ((runOps demoConfig oneActive (gapWrites.map (WriteCall.op 0))).sessions[0]?).map
        (fun s => s.transport)
      ≠ some ((gapWrites.map WriteCall.bytes).flatten) := by
  decide

/-- C5, amended: for every sequence of write calls on an active handle,
whatever the transport answers to each, the bytes that reach the transport
are the bytes before followed by the concatenation, in submission order, of
the buffers of exactly the calls that returned `USP_SUCCESS` (a call that
fails sends nothing, so a retry repeats nothing); the codec layer receives
the same bytes and one end-of-audio marker for each zero-length call that
returned `USP_SUCCESS`, and a zero-length terminal call that returns
`USP_SUCCESS` arrives at the codec layer as the last frame.  When the
transport delivers every call and none is a null buffer with a non-zero
length, every call returns `USP_SUCCESS` and the transport receives the
concatenation of all the submitted buffers. -/
theorem accepted_writes_reach_transport_in_order (cfg : Config) (e : Engine) (h : UspHandle)
    (s : Session) (ws : List WriteCall)
    (hs : e.sessions[h]? = some s) (hact : s.state = SessionState.Active) :
    ∃ s1, (runOps cfg e (ws.map (WriteCall.op h))).sessions[h]? = some s1 ∧
      (results cfg e (ws.map (WriteCall.op h))).length = ws.length ∧
      s1.transport
        = s.transport ++ acceptedBytes ws (results cfg e (ws.map (WriteCall.op h))) ∧
      (s1.codec.map AudioFrame.payload).flatten
        = (s.codec.map AudioFrame.payload).flatten ++
          acceptedBytes ws (results cfg e (ws.map (WriteCall.op h))) ∧
      s1.codec.count AudioFrame.endOfAudio
        = s.codec.count AudioFrame.endOfAudio +
          acceptedMarkers ws (results cfg e (ws.map (WriteCall.op h))) ∧
      (∀ front w, ws = front ++ [w] → w.length = 0 →
        (results cfg e (ws.map (WriteCall.op h))).getLast? = some (some USP_SUCCESS) →
        s1.codec.getLast? = some AudioFrame.endOfAudio) ∧
      ((∀ w ∈ ws, w.deliverable = true) →
        results cfg e (ws.map (WriteCall.op h)) = ws.map (fun _ => some USP_SUCCESS) ∧
        s1.transport = s.transport ++ (ws.map WriteCall.bytes).flatten) := by
  obtain ⟨s1, h1, _, _, h4, h5, h6⟩ := writes_any cfg h ws e s hs (Or.inl hact)
  refine ⟨s1, h1, ?_, h4, h5, h6, ?_, ?_⟩
  · rw [results_length, List.length_map]
  · intro front w hws h0 hlast
    subst hws
    obtain ⟨sm, m1, _, m3, _⟩ := writes_any cfg h front e s hs (Or.inl hact)
    obtain ⟨s2, n1, _, _, n4⟩ :=
      write_step cfg (runOps cfg e (front.map (WriteCall.op h))) h sm w m1 m3
    rw [List.map_append, List.map_cons, List.map_nil, results_append] at hlast
    rw [List.map_append, List.map_cons, List.map_nil, runOps_append] at h1
    simp only [results, runOps] at hlast h1
    rw [List.getLast?_concat] at hlast
    have heq : s1 = s2 := Option.some.inj (h1.symm.trans n1)
    rcases n4 with ⟨_, _, _, _, hc⟩ | ⟨hne, _⟩
    · rw [heq, hc, h0]
      simp [framesOf]
    · exact absurd (Option.some.inj hlast) hne
  · intro hd
    have hr := writes_deliverable cfg h ws e s hs hact hd
    refine ⟨hr, ?_⟩
    rw [h4, hr, acceptedBytes_all]

/-- C5, amended, at a concrete input: five bytes out of a buffer of six, one
byte that the transport refuses and that is written again, and the
zero-length write, with frames of at most four bytes. -/
theorem accepted_writes_reach_transport_in_order_witness :
    ∃ s1, (runOps demoConfig oneActive (demoWrites.map (WriteCall.op 0))).sessions[0]?
        = some s1 ∧
      results demoConfig oneActive (demoWrites.map (WriteCall.op 0))
        = [some USP_SUCCESS, some USP_WRITE_ERROR, some USP_SUCCESS, some USP_SUCCESS] ∧
      s1.transport = [1, 2, 3, 4, 5, 6] ∧
      (s1.codec.map AudioFrame.payload).flatten = [1, 2, 3, 4, 5, 6] ∧
      s1.codec.count AudioFrame.endOfAudio = 1 ∧
      s1.codec.getLast? = some AudioFrame.endOfAudio := by
  obtain ⟨s1, h1, _, h3, h4, h5, h6, _⟩ :=
    accepted_writes_reach_transport_in_order demoConfig oneActive 0
      { state := SessionState.Active, callbacks := phraseOnly, context := 7,
        codec := [], transport := [] }
      demoWrites (by decide) rfl
  refine ⟨s1, h1, by decide, ?_, ?_, ?_, ?_⟩
  · rw [h3]; decide
  · rw [h4]; decide
  · rw [h5]; decide
  · exact h6 [WriteCall.data [1, 2, 3, 4, 5] [9] SendReply.delivered,
        WriteCall.data [6] [] SendReply.refused, WriteCall.data [6] [] SendReply.delivered]
      (WriteCall.null 0 SendReply.delivered) rfl rfl (by decide)

end Usp
